import Mathlib

/-!
# Waffle viewer: camera, bounding box and transform algebra of `src/main.c`

Shallow embedding of the geometric core of `main.c`.

* C `float` and `double` values are elements of an arbitrary linearly ordered
  field `F` (exact arithmetic); the theorems that need trigonometry or square
  roots instantiate `F` with `ℝ`.
* Memory reached through a `float *` (or a `float[...]` array) is a map from
  element offsets to values, `Floats F`; the assignment `m[i] = v` is
  `Function.update m i v`.
* The libm functions (`tan`, `tanf`, `cosf`, `sinf`, `sqrtf`) and the macro
  `M_PI` are parameters of the functions that call them.
* Global variables are fields of explicit state records that every callback
  receives and returns.
-/

namespace Waffle

variable {F : Type} [LinearOrderedField F]

/-! ## Definitions -/

/-- The loop `for (int i = 0; i < n; ++i) body(i)`, as a state transformer. -/
def forLoop {σ : Type} (n : Nat) (body : Nat → σ → σ) (s : σ) : σ :=
  match n with
  | 0 => s
  | k + 1 => body k (forLoop k body s)

/-- Memory behind a `float *`: the value at each element offset. -/
abbrev Floats (F : Type) := Nat → F

/-- The macro `SCR_WIDTH`. -/
def SCR_WIDTH : Int := 1000

/-- The macro `SCR_HEIGHT`. -/
def SCR_HEIGHT : Int := 800

/-- The constant `GLFW_MOUSE_BUTTON_LEFT` of `GLFW/glfw3.h`. -/
def GLFW_MOUSE_BUTTON_LEFT : Int := 0

/-- The constant `GLFW_PRESS` of `GLFW/glfw3.h`. -/
def GLFW_PRESS : Int := 1

/-- The constant `GLFW_RELEASE` of `GLFW/glfw3.h`. -/
def GLFW_RELEASE : Int := 0

/-- The camera globals `lastX`, `lastY`, `yaw`, `pitch`, `rotating`. -/
structure Camera (F : Type) where
  lastX : F
  lastY : F
  yaw : F
  pitch : F
  rotating : Int

/-- The initial values of the camera globals (lines 22 to 24). -/
def Camera.initial : Camera F :=
  { lastX := (SCR_WIDTH : F) / 2, lastY := (SCR_HEIGHT : F) / 2, yaw := 0, pitch := 0,
    rotating := 0 }

/-- The function `mouse_button_callback`. The pair `cursorX`, `cursorY` is what
`glfwGetCursorPos` stores into `lastX`, `lastY`; `mods` is unused. -/
def mouse_button_callback (g : Camera F) (cursorX cursorY : F) (button action : Int) :
    Camera F :=
  if button = GLFW_MOUSE_BUTTON_LEFT then
    if action = GLFW_PRESS then
      let g := { g with rotating := 1 }
      { g with lastX := cursorX, lastY := cursorY }
    else if action = GLFW_RELEASE then
      { g with rotating := 0 }
    else g
  else g

/-- The function `mouse_callback`. -/
def mouse_callback (g : Camera F) (xpos ypos : F) : Camera F :=
  if g.rotating = 0 then g
  else
    let sensitivity : F := 0.3
    let xoffset : F := (xpos - g.lastX) * sensitivity * (-1)
    let yoffset : F := (ypos - g.lastY) * sensitivity * (-1)
    let g := { g with lastX := xpos }
    let g := { g with lastY := ypos }
    let g := { g with yaw := g.yaw + xoffset }
    let g := { g with pitch := g.pitch + yoffset }
    let g := if g.pitch > 89 then { g with pitch := 89 } else g
    if g.pitch < -89 then { g with pitch := -89 } else g

/-- A pointer event as GLFW delivers it: a mouse-button event (with the cursor
position `glfwGetCursorPos` reports at that moment) or a cursor-position event. -/
inductive Event (F : Type) where
  | mouseButton (button action : Int) (cursorX cursorY : F)
  | cursorPos (xpos ypos : F)

/-- Delivery of one event to the callback registered for it. -/
def deliver (g : Camera F) : Event F → Camera F
  | .mouseButton button action cursorX cursorY =>
      mouse_button_callback g cursorX cursorY button action
  | .cursorPos xpos ypos => mouse_callback g xpos ypos

/-- Delivery of a finite sequence of events, in order. -/
def deliverAll (g : Camera F) (events : List (Event F)) : Camera F :=
  events.foldl deliver g

/-- The scenario of `n` consecutive cursor moves from `(x0, y0)`, the `k`-th to
`(x0, y0 - k * (100 / 3))`, so that each adds `10` degrees to the pitch. -/
def dragMoves (x0 y0 : F) (n : Nat) : List (Event F) :=
  (List.range n).map (fun (k : Nat) => Event.cursorPos x0 (y0 - ((k : F) + 1) * (100 / 3)))

/-- The function `setIdentity`. -/
def setIdentity (m : Floats F) : Floats F :=
  let m := forLoop 16 (fun i m => Function.update m i 0) m
  let m := Function.update m 15 1
  let m := Function.update m 10 1
  let m := Function.update m 5 1
  Function.update m 0 1

/-- The function `setPerspective`; `tanf` is the libm `tan`. -/
def setPerspective (tanf : F → F) (m : Floats F) (fov aspect near far : F) : Floats F :=
  let f : F := 1 / tanf (fov / 2)
  let m := setIdentity m
  let m := Function.update m 0 (f / aspect)
  let m := Function.update m 5 f
  let m := Function.update m 10 ((far + near) / (near - far))
  let m := Function.update m 11 (-1)
  Function.update m 14 ((2 * far * near) / (near - far))

/-- The function `setView`; `sqrtf` is the libm `sqrtf`. -/
def setView (sqrtf : F → F) (m : Floats F) (eyeX eyeY eyeZ centerX centerY centerZ
    upX upY upZ : F) : Floats F :=
  let f : Floats F := fun i => [centerX - eyeX, centerY - eyeY, centerZ - eyeZ].getD i 0
  let fmag : F := sqrtf (f 0 * f 0 + f 1 * f 1 + f 2 * f 2)
  let f := forLoop 3 (fun i f => Function.update f i (f i / fmag)) f
  let up : Floats F := fun i => [upX, upY, upZ].getD i 0
  let smag : F := sqrtf (up 0 * up 0 + up 1 * up 1 + up 2 * up 2)
  let up := forLoop 3 (fun i up => Function.update up i (up i / smag)) up
  let s : Floats F := fun i =>
    [f 1 * up 2 - f 2 * up 1, f 2 * up 0 - f 0 * up 2, f 0 * up 1 - f 1 * up 0].getD i 0
  let u : Floats F := fun i =>
    [s 1 * f 2 - s 2 * f 1, s 2 * f 0 - s 0 * f 2, s 0 * f 1 - s 1 * f 0].getD i 0
  let m := setIdentity m
  let m := Function.update m 0 (s 0)
  let m := Function.update m 4 (s 1)
  let m := Function.update m 8 (s 2)
  let m := Function.update m 1 (u 0)
  let m := Function.update m 5 (u 1)
  let m := Function.update m 9 (u 2)
  let m := Function.update m 2 (-f 0)
  let m := Function.update m 6 (-f 1)
  let m := Function.update m 10 (-f 2)
  let m := Function.update m 12 (-(s 0 * eyeX + s 1 * eyeY + s 2 * eyeZ))
  let m := Function.update m 13 (-(u 0 * eyeX + u 1 * eyeY + u 2 * eyeZ))
  Function.update m 14 (f 0 * eyeX + f 1 * eyeY + f 2 * eyeZ)

/-- The function `setScale`. -/
def setScale (m : Floats F) (x y z : F) : Floats F :=
  let m := forLoop 16 (fun i m => Function.update m i 0) m
  let m := Function.update m 0 x
  let m := Function.update m 5 y
  let m := Function.update m 10 z
  Function.update m 15 1

/-- The function `setTranslation`. -/
def setTranslation (m : Floats F) (x y z : F) : Floats F :=
  let m := setIdentity m
  let m := Function.update m 12 x
  let m := Function.update m 13 y
  Function.update m 14 z

/-- The local array `rx` of `setRotationXY` after its four assignments. -/
def setRotationXY.rx (cx sx : F) : Floats F :=
  let rx := setIdentity (fun _ => 0)
  let rx := Function.update rx 5 cx
  let rx := Function.update rx 6 (-sx)
  let rx := Function.update rx 9 sx
  Function.update rx 10 cx

/-- The local array `ry` of `setRotationXY` after its four assignments. -/
def setRotationXY.ry (cy sy : F) : Floats F :=
  let ry := setIdentity (fun _ => 0)
  let ry := Function.update ry 0 cy
  let ry := Function.update ry 2 sy
  let ry := Function.update ry 8 (-sy)
  Function.update ry 10 cy

/-- The function `setRotationXY`; `cosf` and `sinf` are the libm functions. The
local arrays start out as zeros (each is fully written before it is read). -/
def setRotationXY (cosf sinf : F → F) (m : Floats F) (angleX angleY : F) : Floats F :=
  let cx := cosf angleX
  let sx := sinf angleX
  let cy := cosf angleY
  let sy := sinf angleY
  let rx := setRotationXY.rx cx sx
  let ry := setRotationXY.ry cy sy
  let temp : Floats F := fun _ => 0
  let temp := forLoop 16 (fun i temp => Function.update temp i 0) temp
  let temp := forLoop 4 (fun row temp =>
    forLoop 4 (fun col temp =>
      forLoop 4 (fun k temp =>
        Function.update temp (row * 4 + col)
          (temp (row * 4 + col) + ry (row * 4 + k) * rx (k * 4 + col))) temp) temp) temp
  forLoop 16 (fun i m => Function.update m i (temp i)) m

/-- The function `mul4x4`; the result is the array `out` after the call. -/
def mul4x4 (a b out : Floats F) : Floats F :=
  forLoop 4 (fun i out =>
    forLoop 4 (fun j out =>
      let out := Function.update out (j + i * 4) 0
      forLoop 4 (fun k out =>
        Function.update out (j + i * 4) (out (j + i * 4) + a (k + i * 4) * b (j + k * 4)))
        out) out) out

/-- The bounding-box globals `modelMin`, `modelMax`, `modelCenter`, `modelSize`. -/
structure Model (F : Type) where
  modelMin : Floats F
  modelMax : Floats F
  modelCenter : Floats F
  modelSize : F

/-- The initial values of the bounding-box globals (lines 28 and 29). -/
def Model.initial : Model F :=
  { modelMin := fun _ => 0, modelMax := fun _ => 0, modelCenter := fun _ => 0, modelSize := 1 }

/-- The body of the inner loop of `computeBoundingBox` for vertex `i` and axis `j`. -/
def computeBoundingBox.axis (vertices : Floats F) (i j : Nat) (g : Model F) : Model F :=
  let v : F := vertices (i * 3 + j)
  let g : Model F :=
    if v < g.modelMin j then { g with modelMin := Function.update g.modelMin j v } else g
  if v > g.modelMax j then { g with modelMax := Function.update g.modelMax j v } else g

/-- The body of the vertex loop of `computeBoundingBox` for vertex `i`: the inner
loop over the three axes. -/
def computeBoundingBox.vertex (vertices : Floats F) (i : Nat) (g : Model F) : Model F :=
  forLoop 3 (computeBoundingBox.axis vertices i) g

/-- The first loop of `computeBoundingBox`: `modelMin[i] = modelMax[i] = vertices[i]`. -/
def computeBoundingBox.first (vertices : Floats F) (g : Model F) : Model F :=
  forLoop 3 (fun i g =>
    let g := { g with modelMax := Function.update g.modelMax i (vertices i) }
    { g with modelMin := Function.update g.modelMin i (g.modelMax i) }) g

/-- The function `computeBoundingBox`, on the globals `g`. -/
def computeBoundingBox (g : Model F) (vertices : Floats F) (count : Nat) : Model F :=
  let g := computeBoundingBox.first vertices g
  let g : Model F := forLoop count (computeBoundingBox.vertex vertices) g
  let g : Model F := forLoop 3 (fun j g =>
    { g with modelCenter :=
        Function.update g.modelCenter j ((g.modelMin j + g.modelMax j) * 0.5) }) g
  let sizeX : F := g.modelMax 0 - g.modelMin 0
  let sizeY : F := g.modelMax 1 - g.modelMin 1
  let sizeZ : F := g.modelMax 2 - g.modelMin 2
  let g : Model F := { g with modelSize := sizeX }
  let g : Model F := if sizeY > g.modelSize then { g with modelSize := sizeY } else g
  if sizeZ > g.modelSize then { g with modelSize := sizeZ } else g

/-- The locals `eyeX`, `eyeY`, `eyeZ` of `main` (line 349). -/
def eyeX : F := 0

/-- See `eyeX`. -/
def eyeY : F := 0.4

/-- See `eyeX`. -/
def eyeZ : F := 3.0

/-- The locals `upX`, `upY`, `upZ` of `main` (line 350). -/
def upX : F := 0

/-- See `upX`. -/
def upY : F := 1

/-- See `upX`. -/
def upZ : F := 0

/-- The local `fov` of the render loop (line 366); `pi` is the macro `M_PI`. -/
def fov (pi : F) : F := pi / 3.0

/-- The local `minWindow` of the render loop (line 362): the smaller of the two
`int` globals, converted to `float`. -/
def minWindow (winWidth winHeight : Int) : F :=
  ((if winWidth < winHeight then winWidth else winHeight : Int) : F)

/-- The local `desiredScreenSize` of the render loop (lines 361 and 363). -/
def desiredScreenSize (winWidth winHeight : Int) : F :=
  let percent : F := 0.45
  percent * minWindow winWidth winHeight

/-- The local `projFactor` of the render loop (line 367). -/
def projFactor (tanf : F → F) (pi : F) (winHeight : Int) : F :=
  ((winHeight : F) / 2.0) / (tanf (fov pi / 2.0) * eyeZ)

/-- The local `adaptiveScale` of the render loop (line 368). -/
def adaptiveScale (tanf : F → F) (pi : F) (winWidth winHeight : Int) (modelSize : F) : F :=
  desiredScreenSize winWidth winHeight / (modelSize * projFactor tanf pi winHeight)

/-- The array `model` of the render loop after lines 370 to 375, from the camera
angles, the bounding-box centre and the adaptive scale. The local arrays start
out as zeros (each is fully written before it is read). -/
def modelMatrix (cosf sinf : F → F) (pi : F) (modelCenter : Floats F)
    (yaw pitch adaptiveScale : F) : Floats F :=
  let scale := setScale (fun _ => 0) adaptiveScale adaptiveScale adaptiveScale
  let rot := setRotationXY cosf sinf (fun _ => 0) (pitch * pi / 180.0) (yaw * pi / 180.0)
  let trans := setTranslation (fun _ => 0) (-modelCenter 0) (-modelCenter 1) (-modelCenter 2)
  let tmp := mul4x4 rot trans (fun _ => 0)
  mul4x4 scale tmp (fun _ => 0)

/-- The array `proj` of the render loop after line 377. -/
def projMatrix (tanf : F → F) (pi : F) (winWidth winHeight : Int) : Floats F :=
  setPerspective tanf (fun _ => 0) (fov pi) ((winWidth : F) / (winHeight : F)) 0.1 100.0

/-- The array `view` of the render loop after line 376. -/
def viewMatrix (sqrtf : F → F) : Floats F :=
  setView sqrtf (fun _ => 0) eyeX eyeY eyeZ 0 0 0 upX upY upZ

/-- The GLSL product `m * v` of a `mat4` uniform uploaded from 16 floats without
transposition (column-major: row `r`, column `c` at offset `4 * c + r`) with a
`vec4`, component `r`. -/
def mulVec4 (m : Floats F) (v : Floats F) (r : Nat) : F :=
  m (4 * 0 + r) * v 0 + m (4 * 1 + r) * v 1 + m (4 * 2 + r) * v 2 + m (4 * 3 + r) * v 3

/-- The GLSL constructor `vec4(p, 1.0)`. -/
def vec4 (p : Floats F) : Floats F := fun i => if i < 3 then p i else 1

/-- A 16-float array read column-major: row `r`, column `c` at offset `4 * c + r`. -/
def colMajor (m : Floats F) : Matrix (Fin 4) (Fin 4) F := fun r c => m (4 * c.val + r.val)

/-- A 16-float array read row-major: row `r`, column `c` at offset `4 * r + c`. -/
def rowMajor (m : Floats F) : Matrix (Fin 4) (Fin 4) F := fun r c => m (4 * r.val + c.val)

/-- The standard right-handed rotation about the X axis by the angle `t`, on
homogeneous column vectors; `cosf` and `sinf` are the cosine and sine. -/
def Rx (cosf sinf : F → F) (t : F) : Matrix (Fin 4) (Fin 4) F :=
  !![1, 0, 0, 0; 0, cosf t, -sinf t, 0; 0, sinf t, cosf t, 0; 0, 0, 0, 1]

/-- The standard right-handed rotation about the Y axis by the angle `t`, on
homogeneous column vectors; `cosf` and `sinf` are the cosine and sine. -/
def Ry (cosf sinf : F → F) (t : F) : Matrix (Fin 4) (Fin 4) F :=
  !![cosf t, 0, sinf t, 0; 0, 1, 0, 0; -sinf t, 0, cosf t, 0; 0, 0, 0, 1]

/-- The entry `n` of the row-major product of two 16-float arrays: row `n / 4` of
`a` times column `n % 4` of `b`, accumulated from zero as `mul4x4` does. -/
def rowTimesCol (a b : Floats F) (n : Nat) : F :=
  0 + a (n / 4 * 4) * b (n % 4) + a (n / 4 * 4 + 1) * b (n % 4 + 4)
    + a (n / 4 * 4 + 2) * b (n % 4 + 8) + a (n / 4 * 4 + 3) * b (n % 4 + 12)

/-- The scenario of one drag: left-button press with the cursor at `(x0, y0)`, one
cursor move to `(x1, y1)`, left-button release with the cursor at `(x2, y2)`. -/
def dragOnce (x0 y0 x1 y1 x2 y2 : F) : List (Event F) :=
  [Event.mouseButton GLFW_MOUSE_BUTTON_LEFT GLFW_PRESS x0 y0, Event.cursorPos x1 y1,
    Event.mouseButton GLFW_MOUSE_BUTTON_LEFT GLFW_RELEASE x2 y2]

/-- The two vertices `(0,0,0)`, `(2,0,0)` as a flat array. -/
def twoVertices : Floats F := fun i => [0, 0, 0, 2, 0, 0].getD i 0

/-- The two vertices `(-1,0,0)`, `(1,0,0)` as a flat array. -/
def segmentVertices : Floats F := fun i => [-1, 0, 0, 1, 0, 0].getD i 0

/-- The attribute `aPos` of vertex `i`: three consecutive floats of the position
buffer (attribute 0 is bound with size 3 and stride 0, line 307). -/
def vertexAt (vertices : Floats F) (i : Nat) : Floats F := fun j => vertices (i * 3 + j)

/-- The vertex shader's `gl_Position = proj * view * model * vec4(aPos, 1.0)`,
computed as `proj * (view * (model * vec4(aPos, 1.0)))` (the same value in exact
arithmetic). -/
def glPosition (proj view model : Floats F) (aPos : Floats F) : Floats F :=
  mulVec4 proj (mulVec4 view (mulVec4 model (vec4 aPos)))

/-- The window x coordinate, in pixels, of a clip-space position under
`glViewport(0, 0, width, height)`: perspective divide, then `(x + 1) * width / 2`. -/
def windowX (width : Int) (clip : Floats F) : F :=
  (clip 0 / clip 3 + 1) * ((width : F) / 2)

/-- The window x coordinate at which one frame of the render loop draws the vertex
`aPos`, from the window size, the bounding-box globals and the camera globals. -/
def screenX (tanf cosf sinf sqrtf : F → F) (pi : F) (winWidth winHeight : Int)
    (g : Model F) (camera : Camera F) (aPos : Floats F) : F :=
  let model := modelMatrix cosf sinf pi g.modelCenter camera.yaw camera.pitch
    (adaptiveScale tanf pi winWidth winHeight g.modelSize)
  let view := viewMatrix sqrtf
  let proj := projMatrix tanf pi winWidth winHeight
  windowX winWidth (glPosition proj view model aPos)

/-- The view-space point `(0, 0, z, 1)`. -/
def onAxis (z : F) : Floats F := fun i => [0, 0, z, 1].getD i 0

/-- The three vertices `(-1,-2,0)`, `(3,4,5)`, `(0,0,0)` as a flat array. -/
def sampleVertices : Floats F := fun i => [-1, -2, 0, 3, 4, 5, 0, 0, 0].getD i 0

/-! ## Evaluation lemmas -/

theorem forLoop_succ {σ : Type} (n : Nat) (body : Nat → σ → σ) (s : σ) :
    forLoop (n + 1) body s = body n (forLoop n body s) := rfl

theorem mul4x4_apply (a b out : Floats F) (n : Nat) (h : n < 16) :
    mul4x4 a b out n = rowTimesCol a b n := by
  interval_cases n <;> rfl

theorem setIdentity_apply (m : Floats F) (n : Nat) (h : n < 16) :
    setIdentity m n = if n % 5 = 0 then 1 else 0 := by
  interval_cases n <;> rfl

/-! ## Orbit camera -/

theorem mouse_callback_eq (g : Camera F) (xpos ypos : F) (h : g.rotating ≠ 0) :
    mouse_callback g xpos ypos
      = { lastX := xpos, lastY := ypos, yaw := g.yaw + (xpos - g.lastX) * 0.3 * (-1),
          pitch := max (-89) (min 89 (g.pitch + (ypos - g.lastY) * 0.3 * (-1))),
          rotating := g.rotating } := by
  unfold mouse_callback
  rw [if_neg h]
  dsimp only
  by_cases h1 : g.pitch + (ypos - g.lastY) * 0.3 * (-1) > 89
  · have h2 : ¬ ((89 : F) < -89) := by norm_num
    rw [if_pos h1]
    dsimp only
    rw [if_neg h2, min_eq_left (le_of_lt h1), max_eq_right (by norm_num)]
  · rw [if_neg h1]
    have h1 := not_lt.mp h1
    by_cases h3 : g.pitch + (ypos - g.lastY) * 0.3 * (-1) < -89
    · rw [if_pos h3, min_eq_right h1, max_eq_left (le_of_lt h3)]
    · rw [if_neg h3, min_eq_right h1, max_eq_right (not_lt.mp h3)]

theorem mouse_callback_pitch (g : Camera F) (xpos ypos : F) (h : g.rotating ≠ 0) :
    (mouse_callback g xpos ypos).pitch
      = max (-89) (min 89 (g.pitch + (ypos - g.lastY) * 0.3 * (-1))) := by
  rw [mouse_callback_eq g xpos ypos h]

theorem mouse_callback_rotating (g : Camera F) (xpos ypos : F) :
    (mouse_callback g xpos ypos).rotating = g.rotating := by
  by_cases h : g.rotating = 0
  · simp only [mouse_callback, if_pos h]
  · rw [mouse_callback_eq g xpos ypos h]

theorem mouse_callback_lastY (g : Camera F) (xpos ypos : F) (h : g.rotating ≠ 0) :
    (mouse_callback g xpos ypos).lastY = ypos := by
  rw [mouse_callback_eq g xpos ypos h]

theorem mouse_callback_yaw (g : Camera F) (xpos ypos : F) (h : g.rotating ≠ 0) :
    (mouse_callback g xpos ypos).yaw = g.yaw + (xpos - g.lastX) * 0.3 * (-1) := by
  rw [mouse_callback_eq g xpos ypos h]

omit [LinearOrderedField F] in
theorem mouse_button_callback_pitch (g : Camera F) (cursorX cursorY : F) (button action : Int) :
    (mouse_button_callback g cursorX cursorY button action).pitch = g.pitch := by
  unfold mouse_button_callback
  split_ifs <;> rfl

theorem deliver_pitch_mem (g : Camera F) (e : Event F) (h : -89 ≤ g.pitch ∧ g.pitch ≤ 89) :
    -89 ≤ (deliver g e).pitch ∧ (deliver g e).pitch ≤ 89 := by
  cases e with
  | mouseButton button action cursorX cursorY =>
      simpa only [deliver, mouse_button_callback_pitch] using h
  | cursorPos xpos ypos =>
      by_cases hr : g.rotating = 0
      · simpa only [deliver, mouse_callback, if_pos hr] using h
      · simp only [deliver, mouse_callback_pitch g xpos ypos hr]
        exact ⟨le_max_left _ _, max_le (by norm_num) (min_le_left _ _)⟩

theorem deliverAll_pitch_mem (events : List (Event F)) (g : Camera F)
    (h : -89 ≤ g.pitch ∧ g.pitch ≤ 89) :
    -89 ≤ (deliverAll g events).pitch ∧ (deliverAll g events).pitch ≤ 89 := by
  induction events generalizing g with
  | nil => simpa only [deliverAll, List.foldl_nil] using h
  | cons e es ih =>
      simpa only [deliverAll, List.foldl_cons] using ih (deliver g e) (deliver_pitch_mem g e h)

theorem deliverAll_append (g : Camera F) (es es2 : List (Event F)) :
    deliverAll g (es ++ es2) = deliverAll (deliverAll g es) es2 := by
  simp only [deliverAll, List.foldl_append]

theorem dragMoves_succ (x0 y0 : F) (n : Nat) :
    dragMoves x0 y0 (n + 1)
      = dragMoves x0 y0 n ++ [Event.cursorPos x0 (y0 - ((n : F) + 1) * (100 / 3))] := by
  simp only [dragMoves, List.range_succ, List.map_append, List.map_cons, List.map_nil]

theorem deliverAll_dragMoves (x0 y0 : F) (g : Camera F) (hr : g.rotating ≠ 0)
    (hy : g.lastY = y0) (hp : g.pitch = 0) (n : Nat) :
    (deliverAll g (dragMoves x0 y0 n)).rotating ≠ 0
      ∧ (deliverAll g (dragMoves x0 y0 n)).lastY = y0 - (n : F) * (100 / 3)
      ∧ (deliverAll g (dragMoves x0 y0 n)).pitch = min 89 (10 * (n : F)) := by
  induction n with
  | zero =>
      refine ⟨by simpa [dragMoves, deliverAll] using hr, by simp [dragMoves, deliverAll, hy], ?_⟩
      simp [dragMoves, deliverAll, hp]
  | succ n ih =>
      obtain ⟨h1, h2, h3⟩ := ih
      rw [dragMoves_succ, deliverAll_append]
      simp only [deliverAll, List.foldl_cons, List.foldl_nil, deliver]
      simp only [deliverAll] at h1 h2 h3
      refine ⟨by rwa [mouse_callback_rotating], ?_, ?_⟩
      · rw [mouse_callback_lastY _ _ _ h1]
        push_cast
        ring
      · rw [mouse_callback_pitch _ _ _ h1, h2, h3]
        have hn : (0 : F) ≤ (n : F) := Nat.cast_nonneg n
        have e : y0 - ((n : F) + 1) * (100 / 3) - (y0 - (n : F) * (100 / 3)) = -(100 / 3) := by
          ring
        have e3 : -(100 / 3) * 0.3 * (-1) = (10 : F) := by norm_num
        rw [e, e3]
        push_cast
        rcases le_total (89 : F) (10 * (n : F)) with h | h
        · rw [min_eq_left h, min_eq_left (by norm_num : (89 : F) ≤ 89 + 10),
            max_eq_right (by norm_num), min_eq_left (by linarith)]
        · rw [min_eq_right h, show 10 * (n : F) + 10 = 10 * ((n : F) + 1) by ring,
            max_eq_right (le_min (by norm_num) (by linarith))]

/-- C3 (pitch clamp): from the initial camera state, after every finite sequence
of pointer events the pitch lies in `[-89, 89]`; a cursor move during a drag whose
unclamped pitch exceeds `89` (is below `-89`) leaves the pitch exactly `89`
(`-89`); and a press followed by 1000 moves that each add 10 degrees ends with
pitch `89`. -/
theorem pitch_clamp :
    (∀ events : List (Event F),
        -89 ≤ (deliverAll Camera.initial events).pitch
          ∧ (deliverAll Camera.initial events).pitch ≤ 89)
    ∧ (∀ (g : Camera F) (xpos ypos : F), g.rotating ≠ 0 →
        (89 < g.pitch + (ypos - g.lastY) * 0.3 * (-1) →
            (mouse_callback g xpos ypos).pitch = 89)
        ∧ (g.pitch + (ypos - g.lastY) * 0.3 * (-1) < -89 →
            (mouse_callback g xpos ypos).pitch = -89))
    ∧ (∀ x0 y0 : F,
        (deliverAll Camera.initial
          (Event.mouseButton GLFW_MOUSE_BUTTON_LEFT GLFW_PRESS x0 y0
            :: dragMoves x0 y0 1000)).pitch = 89) := by
  refine ⟨fun events => deliverAll_pitch_mem events _ ?_, ?_, ?_⟩
  · simp only [Camera.initial]
    norm_num
  · intro g xpos ypos hr
    rw [mouse_callback_pitch g xpos ypos hr]
    constructor
    · intro h
      rw [min_eq_left (le_of_lt h), max_eq_right (by norm_num)]
    · intro h
      rw [min_eq_right (by linarith), max_eq_left (le_of_lt h)]
  · intro x0 y0
    have key := (deliverAll_dragMoves x0 y0
      (mouse_button_callback (Camera.initial : Camera F) x0 y0
        GLFW_MOUSE_BUTTON_LEFT GLFW_PRESS)
      (by simp [mouse_button_callback, GLFW_PRESS])
      (by simp [mouse_button_callback, GLFW_PRESS])
      (by simp [mouse_button_callback, GLFW_PRESS, Camera.initial]) 1000).2.2
    simp only [deliverAll, List.foldl_cons, deliver] at key ⊢
    rw [key]
    norm_num

/-- Witness of `pitch_clamp`: dragging from pitch `80` by `-100` pixels saturates at
`89`. -/
theorem pitch_clamp_witness :
    (mouse_callback ({ lastX := 0, lastY := 0, yaw := 0, pitch := 80, rotating := 1 } :
      Camera ℚ) 0 (-100)).pitch = 89 :=
  ((@pitch_clamp ℚ _).2.1 { lastX := 0, lastY := 0, yaw := 0, pitch := 80, rotating := 1 }
    0 (-100) (by decide)).1 (by norm_num)

/-- C5 (drag round-trip): from any camera state with pitch in `[-89, 89]`, a
left-button press at `(x0, y0)`, one move to `(x1, y1)` and a release leave
`yaw - 0.3 * (x1 - x0)`, the pitch `p - 0.3 * (y1 - y0)` clamped to `[-89, 89]`, and
the drag flag cleared; a purely horizontal move keeps the pitch and a purely
vertical move keeps the yaw. -/
theorem drag_round_trip (g : Camera F) (x0 y0 x1 y1 x2 y2 : F)
    (hlo : -89 ≤ g.pitch) (hhi : g.pitch ≤ 89) :
    (deliverAll g (dragOnce x0 y0 x1 y1 x2 y2)).yaw = g.yaw - 0.3 * (x1 - x0)
    ∧ (deliverAll g (dragOnce x0 y0 x1 y1 x2 y2)).pitch
        = max (-89) (min 89 (g.pitch - 0.3 * (y1 - y0)))
    ∧ (deliverAll g (dragOnce x0 y0 x1 y1 x2 y2)).rotating = 0
    ∧ (y1 = y0 → (deliverAll g (dragOnce x0 y0 x1 y1 x2 y2)).pitch = g.pitch)
    ∧ (x1 = x0 → (deliverAll g (dragOnce x0 y0 x1 y1 x2 y2)).yaw = g.yaw) := by
  have hr : (mouse_button_callback g x0 y0 GLFW_MOUSE_BUTTON_LEFT GLFW_PRESS).rotating ≠ 0 := by
    simp [mouse_button_callback, GLFW_PRESS]
  have hyaw : (deliverAll g (dragOnce x0 y0 x1 y1 x2 y2)).yaw = g.yaw - 0.3 * (x1 - x0) := by
    simp only [deliverAll, dragOnce, List.foldl_cons, List.foldl_nil, deliver]
    rw [show ∀ c : Camera F, (mouse_button_callback c x2 y2 GLFW_MOUSE_BUTTON_LEFT
      GLFW_RELEASE).yaw = c.yaw from fun c => by
        simp [mouse_button_callback, GLFW_PRESS, GLFW_RELEASE]]
    rw [mouse_callback_yaw _ _ _ hr]
    simp only [mouse_button_callback, GLFW_PRESS, if_true]
    ring
  have hpitch : (deliverAll g (dragOnce x0 y0 x1 y1 x2 y2)).pitch
      = max (-89) (min 89 (g.pitch - 0.3 * (y1 - y0))) := by
    simp only [deliverAll, dragOnce, List.foldl_cons, List.foldl_nil, deliver]
    rw [mouse_button_callback_pitch, mouse_callback_pitch _ _ _ hr]
    simp only [mouse_button_callback, GLFW_PRESS, if_true]
    congr 2
    ring
  refine ⟨hyaw, hpitch, ?_, ?_, ?_⟩
  · simp [deliverAll, dragOnce, deliver, mouse_button_callback, GLFW_PRESS, GLFW_RELEASE,
      GLFW_MOUSE_BUTTON_LEFT]
  · intro h
    rw [hpitch, h, sub_self, mul_zero, sub_zero, min_eq_right hhi, max_eq_right hlo]
  · intro h
    rw [hyaw, h, sub_self, mul_zero, sub_zero]

/-- Witness of `drag_round_trip`: press at `(100, 100)`, move to `(110, 100)`,
release, from the initial state: the yaw changes by `-3` and the pitch by `0`. -/
theorem drag_round_trip_witness :
    (deliverAll (Camera.initial : Camera ℚ) (dragOnce 100 100 110 100 110 100)).yaw = 0 - 3
    ∧ (deliverAll (Camera.initial : Camera ℚ) (dragOnce 100 100 110 100 110 100)).pitch = 0 := by
  have h := drag_round_trip (Camera.initial : Camera ℚ) 100 100 110 100 110 100
    (by norm_num [Camera.initial]) (by norm_num [Camera.initial])
  refine ⟨?_, h.2.2.2.1 rfl⟩
  rw [h.1]
  norm_num [Camera.initial]

/-- C6 (idle immunity): with `rotating = 0`, `mouse_callback` returns the camera
state unchanged (yaw, pitch, drag flag and anchor). -/
theorem idle_immunity (g : Camera F) (xpos ypos : F) (h : g.rotating = 0) :
    mouse_callback g xpos ypos = g := by
  simp only [mouse_callback, if_pos h]

/-- Witness of `idle_immunity` at the initial camera state. -/
theorem idle_immunity_witness :
    mouse_callback (Camera.initial : Camera ℚ) 640 480 = Camera.initial :=
  idle_immunity Camera.initial 640 480 rfl

/-! ## Adaptive scale -/

theorem minWindow_eq (winWidth winHeight : Int) :
    (minWindow winWidth winHeight : F) = min (winWidth : F) (winHeight : F) := by
  unfold minWindow
  split_ifs with h
  · rw [min_eq_left (by exact_mod_cast le_of_lt h)]
  · rw [min_eq_right (by exact_mod_cast not_lt.mp h)]

theorem adaptiveScale_mul (tanf : F → F) (pi : F) (winWidth winHeight : Int) (modelSize : F)
    (hH : 0 < winHeight) (hs : modelSize ≠ 0) (ht : tanf (fov pi / 2.0) ≠ 0) :
    adaptiveScale tanf pi winWidth winHeight modelSize * modelSize
        * projFactor tanf pi winHeight
      = 0.45 * min (winWidth : F) (winHeight : F) := by
  have hH2 : (winHeight : F) ≠ 0 := by exact_mod_cast ne_of_gt hH
  have hp : projFactor tanf pi winHeight ≠ 0 := by
    unfold projFactor eyeZ
    exact div_ne_zero (div_ne_zero hH2 (by norm_num)) (mul_ne_zero ht (by norm_num))
  unfold adaptiveScale desiredScreenSize
  rw [minWindow_eq]
  field_simp
  ring

theorem tan_half_fov_pos : 0 < Real.tan (fov Real.pi / 2.0) := by
  have hpi := Real.pi_pos
  apply Real.tan_pos_of_pos_of_lt_pi_div_two
  · unfold fov
    norm_num
    exact hpi
  · unfold fov
    norm_num
    linarith

/-- The scale formula of the render loop: for every viewport `W, H > 0` and every
`modelSize > 0`, with `fov = pi / 3` and `eyeZ = 3` in exact real arithmetic,
`adaptiveScale * modelSize * projFactor = 0.45 * min W H`, where
`projFactor = (H / 2) / (tan (fov / 2) * eyeZ)`. -/
theorem adaptiveScale_formula (W H : Int) (hH : 0 < H) (modelSize : ℝ) (hs : 0 < modelSize) :
    adaptiveScale Real.tan Real.pi W H modelSize * modelSize * projFactor Real.tan Real.pi H
        = 0.45 * min (W : ℝ) (H : ℝ)
    ∧ projFactor Real.tan Real.pi H = ((H : ℝ) / 2) / (Real.tan (Real.pi / 3 / 2) * 3) := by
  refine ⟨adaptiveScale_mul Real.tan Real.pi W H modelSize hH (ne_of_gt hs)
    (ne_of_gt tan_half_fov_pos), ?_⟩
  unfold projFactor fov eyeZ
  norm_num

/-! ## Matrix product -/

theorem mul4x4_setIdentity_left (z M out : Floats F) (n : Nat) (h : n < 16) :
    mul4x4 (setIdentity z) M out n = M n := by
  rw [mul4x4_apply _ _ _ n h]
  interval_cases n <;> simp [rowTimesCol, setIdentity_apply]

theorem mul4x4_setIdentity_right (z M out : Floats F) (n : Nat) (h : n < 16) :
    mul4x4 M (setIdentity z) out n = M n := by
  rw [mul4x4_apply _ _ _ n h]
  interval_cases n <;> simp [rowTimesCol, setIdentity_apply]

set_option maxHeartbeats 4000000 in
theorem mul4x4_assoc (A B C o1 o2 o3 o4 : Floats F) (n : Nat) (h : n < 16) :
    mul4x4 (mul4x4 A B o1) C o2 n = mul4x4 A (mul4x4 B C o3) o4 n := by
  rw [mul4x4_apply _ _ _ n h, mul4x4_apply _ _ _ n h]
  have h1 : n / 4 * 4 < 16 := by omega
  have h2 : n / 4 * 4 + 1 < 16 := by omega
  have h3 : n / 4 * 4 + 2 < 16 := by omega
  have h4 : n / 4 * 4 + 3 < 16 := by omega
  have k1 : n % 4 < 16 := by omega
  have k2 : n % 4 + 4 < 16 := by omega
  have k3 : n % 4 + 8 < 16 := by omega
  have k4 : n % 4 + 12 < 16 := by omega
  unfold rowTimesCol
  simp only [mul4x4_apply _ _ _ _ h1, mul4x4_apply _ _ _ _ h2, mul4x4_apply _ _ _ _ h3,
    mul4x4_apply _ _ _ _ h4, mul4x4_apply _ _ _ _ k1, mul4x4_apply _ _ _ _ k2,
    mul4x4_apply _ _ _ _ k3, mul4x4_apply _ _ _ _ k4, rowTimesCol]
  interval_cases n <;> norm_num <;> ring

/-- C10 (matrix product laws): with `I` the matrix written by `setIdentity`, on
the 16 elements of the output array, `mul4x4 I M = M`, `mul4x4 M I = M`, and
`mul4x4 (mul4x4 A B) C = mul4x4 A (mul4x4 B C)`, whatever the output arrays held
before. -/
theorem mul4x4_laws (M A B C z out o1 o2 o3 o4 : Floats F) (n : Fin 16) :
    mul4x4 (setIdentity z) M out n.val = M n.val
    ∧ mul4x4 M (setIdentity z) out n.val = M n.val
    ∧ mul4x4 (mul4x4 A B o1) C o2 n.val = mul4x4 A (mul4x4 B C o3) o4 n.val :=
  ⟨mul4x4_setIdentity_left z M out n.val n.isLt, mul4x4_setIdentity_right z M out n.val n.isLt,
    mul4x4_assoc A B C o1 o2 o3 o4 n.val n.isLt⟩

/-! ## Bounding box -/

theorem axis_eq (vertices : Floats F) (i j : Nat) (g : Model F) :
    computeBoundingBox.axis vertices i j g
      = { modelMin := Function.update g.modelMin j (min (g.modelMin j) (vertices (i * 3 + j))),
          modelMax := Function.update g.modelMax j (max (g.modelMax j) (vertices (i * 3 + j))),
          modelCenter := g.modelCenter, modelSize := g.modelSize } := by
  unfold computeBoundingBox.axis
  dsimp only
  by_cases h1 : vertices (i * 3 + j) < g.modelMin j
  · rw [if_pos h1]
    dsimp only
    rw [min_eq_right (le_of_lt h1)]
    by_cases h2 : vertices (i * 3 + j) > g.modelMax j
    · rw [if_pos h2, max_eq_right (le_of_lt h2)]
    · rw [if_neg h2, max_eq_left (not_lt.mp h2), Function.update_eq_self]
  · rw [if_neg h1, min_eq_left (not_lt.mp h1), Function.update_eq_self]
    by_cases h2 : vertices (i * 3 + j) > g.modelMax j
    · rw [if_pos h2, max_eq_right (le_of_lt h2)]
    · rw [if_neg h2, max_eq_left (not_lt.mp h2), Function.update_eq_self]

theorem vertex_modelMin (vertices : Floats F) (i : Nat) (g : Model F) (j : Nat) (hj : j < 3) :
    (computeBoundingBox.vertex vertices i g).modelMin j
      = min (g.modelMin j) (vertices (i * 3 + j)) := by
  unfold computeBoundingBox.vertex
  simp only [forLoop, axis_eq]
  interval_cases j <;> simp [Function.update_apply]

theorem vertex_modelMax (vertices : Floats F) (i : Nat) (g : Model F) (j : Nat) (hj : j < 3) :
    (computeBoundingBox.vertex vertices i g).modelMax j
      = max (g.modelMax j) (vertices (i * 3 + j)) := by
  unfold computeBoundingBox.vertex
  simp only [forLoop, axis_eq]
  interval_cases j <;> simp [Function.update_apply]

omit [LinearOrderedField F] in
theorem first_modelMin (vertices : Floats F) (g : Model F) (j : Nat) (hj : j < 3) :
    (computeBoundingBox.first vertices g).modelMin j = vertices j := by
  unfold computeBoundingBox.first
  simp only [forLoop]
  interval_cases j <;> simp [Function.update_apply]

omit [LinearOrderedField F] in
theorem first_modelMax (vertices : Floats F) (g : Model F) (j : Nat) (hj : j < 3) :
    (computeBoundingBox.first vertices g).modelMax j = vertices j := by
  unfold computeBoundingBox.first
  simp only [forLoop]
  interval_cases j <;> simp [Function.update_apply]

theorem computeBoundingBox_modelMin (g : Model F) (vertices : Floats F) (count : Nat) :
    (computeBoundingBox g vertices count).modelMin
      = (forLoop count (computeBoundingBox.vertex vertices)
          (computeBoundingBox.first vertices g)).modelMin := by
  unfold computeBoundingBox
  simp only [forLoop]
  split_ifs <;> rfl

theorem computeBoundingBox_modelMax (g : Model F) (vertices : Floats F) (count : Nat) :
    (computeBoundingBox g vertices count).modelMax
      = (forLoop count (computeBoundingBox.vertex vertices)
          (computeBoundingBox.first vertices g)).modelMax := by
  unfold computeBoundingBox
  simp only [forLoop]
  split_ifs <;> rfl

theorem computeBoundingBox_modelCenter (g : Model F) (vertices : Floats F) (count : Nat)
    (j : Nat) (hj : j < 3) :
    (computeBoundingBox g vertices count).modelCenter j
      = ((computeBoundingBox g vertices count).modelMin j
          + (computeBoundingBox g vertices count).modelMax j) * 0.5 := by
  rw [computeBoundingBox_modelMin, computeBoundingBox_modelMax]
  unfold computeBoundingBox
  simp only [forLoop]
  split_ifs <;> interval_cases j <;> simp [Function.update_apply]

theorem computeBoundingBox_modelSize (g : Model F) (vertices : Floats F) (count : Nat) :
    (computeBoundingBox g vertices count).modelSize
      = max (max ((computeBoundingBox g vertices count).modelMax 0
                - (computeBoundingBox g vertices count).modelMin 0)
              ((computeBoundingBox g vertices count).modelMax 1
                - (computeBoundingBox g vertices count).modelMin 1))
          ((computeBoundingBox g vertices count).modelMax 2
            - (computeBoundingBox g vertices count).modelMin 2) := by
  rw [computeBoundingBox_modelMin, computeBoundingBox_modelMax]
  unfold computeBoundingBox
  simp only [forLoop]
  split_ifs with h1 h2 h2
  · dsimp only at h1 h2 ⊢
    rw [max_eq_right (le_of_lt h1), max_eq_right (le_of_lt h2)]
  · dsimp only at h1 h2 ⊢
    rw [max_eq_right (le_of_lt h1), max_eq_left (not_lt.mp h2)]
  · dsimp only at h1 h2 ⊢
    rw [max_eq_left (not_lt.mp h1), max_eq_right (le_of_lt h2)]
  · dsimp only at h1 h2 ⊢
    rw [max_eq_left (not_lt.mp h1), max_eq_left (not_lt.mp h2)]

theorem loop_modelMin (vertices : Floats F) (g : Model F) (j : Nat) (hj : j < 3) (n : Nat) :
    (forLoop n (computeBoundingBox.vertex vertices) g).modelMin j ≤ g.modelMin j
    ∧ (∀ i < n, (forLoop n (computeBoundingBox.vertex vertices) g).modelMin j
        ≤ vertices (i * 3 + j))
    ∧ ((forLoop n (computeBoundingBox.vertex vertices) g).modelMin j = g.modelMin j
        ∨ ∃ i < n, (forLoop n (computeBoundingBox.vertex vertices) g).modelMin j
            = vertices (i * 3 + j)) := by
  induction n with
  | zero => exact ⟨le_refl _, fun i hi => absurd hi (Nat.not_lt_zero i), Or.inl rfl⟩
  | succ n ih =>
      obtain ⟨h1, h2, h3⟩ := ih
      rw [forLoop_succ, vertex_modelMin _ _ _ _ hj]
      refine ⟨le_trans (min_le_left _ _) h1, ?_, ?_⟩
      · intro i hi
        rcases Nat.lt_succ_iff_lt_or_eq.mp hi with h | h
        · exact le_trans (min_le_left _ _) (h2 i h)
        · rw [h]
          exact min_le_right _ _
      · rcases le_total ((forLoop n (computeBoundingBox.vertex vertices) g).modelMin j)
          (vertices (n * 3 + j)) with h | h
        · rw [min_eq_left h]
          rcases h3 with h3 | ⟨i, hi, h3⟩
          · exact Or.inl h3
          · exact Or.inr ⟨i, Nat.lt_succ_of_lt hi, h3⟩
        · rw [min_eq_right h]
          exact Or.inr ⟨n, Nat.lt_succ_self n, rfl⟩

theorem loop_modelMax (vertices : Floats F) (g : Model F) (j : Nat) (hj : j < 3) (n : Nat) :
    g.modelMax j ≤ (forLoop n (computeBoundingBox.vertex vertices) g).modelMax j
    ∧ (∀ i < n, vertices (i * 3 + j)
        ≤ (forLoop n (computeBoundingBox.vertex vertices) g).modelMax j)
    ∧ ((forLoop n (computeBoundingBox.vertex vertices) g).modelMax j = g.modelMax j
        ∨ ∃ i < n, (forLoop n (computeBoundingBox.vertex vertices) g).modelMax j
            = vertices (i * 3 + j)) := by
  induction n with
  | zero => exact ⟨le_refl _, fun i hi => absurd hi (Nat.not_lt_zero i), Or.inl rfl⟩
  | succ n ih =>
      obtain ⟨h1, h2, h3⟩ := ih
      rw [forLoop_succ, vertex_modelMax _ _ _ _ hj]
      refine ⟨le_trans h1 (le_max_left _ _), ?_, ?_⟩
      · intro i hi
        rcases Nat.lt_succ_iff_lt_or_eq.mp hi with h | h
        · exact le_trans (h2 i h) (le_max_left _ _)
        · rw [h]
          exact le_max_right _ _
      · rcases le_total (vertices (n * 3 + j))
          ((forLoop n (computeBoundingBox.vertex vertices) g).modelMax j) with h | h
        · rw [max_eq_left h]
          rcases h3 with h3 | ⟨i, hi, h3⟩
          · exact Or.inl h3
          · exact Or.inr ⟨i, Nat.lt_succ_of_lt hi, h3⟩
        · rw [max_eq_right h]
          exact Or.inr ⟨n, Nat.lt_succ_self n, rfl⟩

/-- C4 (bounding box correctness): for a non-empty vertex array, on each axis `j`
`computeBoundingBox` sets `modelMin[j]` to the minimum and `modelMax[j]` to the
maximum of coordinate `j` over all vertices (a lower, respectively upper, bound
that some vertex attains), so `modelMin[j] <= modelMax[j]`; `modelCenter[j]` is
`(modelMin[j] + modelMax[j]) / 2`; `modelSize` is the largest of the three
extents. For the vertices `(-1,-2,0)`, `(3,4,5)`, `(0,0,0)`: min `(-1,-2,0)`, max
`(3,4,5)`, centre `(1,1,2.5)`, size `6`. -/
theorem bounding_box_correct :
    (∀ (g : Model F) (vertices : Floats F) (count : Nat), 0 < count →
      (∀ j : Fin 3,
        (∀ i < count, (computeBoundingBox g vertices count).modelMin j.val
            ≤ vertices (i * 3 + j.val))
        ∧ (∃ i < count, (computeBoundingBox g vertices count).modelMin j.val
            = vertices (i * 3 + j.val))
        ∧ (∀ i < count, vertices (i * 3 + j.val)
            ≤ (computeBoundingBox g vertices count).modelMax j.val)
        ∧ (∃ i < count, (computeBoundingBox g vertices count).modelMax j.val
            = vertices (i * 3 + j.val))
        ∧ (computeBoundingBox g vertices count).modelMin j.val
            ≤ (computeBoundingBox g vertices count).modelMax j.val
        ∧ (computeBoundingBox g vertices count).modelCenter j.val
            = ((computeBoundingBox g vertices count).modelMin j.val
                + (computeBoundingBox g vertices count).modelMax j.val) / 2)
      ∧ (computeBoundingBox g vertices count).modelSize
          = max (max ((computeBoundingBox g vertices count).modelMax 0
                    - (computeBoundingBox g vertices count).modelMin 0)
                  ((computeBoundingBox g vertices count).modelMax 1
                    - (computeBoundingBox g vertices count).modelMin 1))
              ((computeBoundingBox g vertices count).modelMax 2
                - (computeBoundingBox g vertices count).modelMin 2))
    ∧ (∀ g : Model F,
        (List.range 3).map (computeBoundingBox g sampleVertices 3).modelMin = [-1, -2, 0]
        ∧ (List.range 3).map (computeBoundingBox g sampleVertices 3).modelMax = [3, 4, 5]
        ∧ (List.range 3).map (computeBoundingBox g sampleVertices 3).modelCenter = [1, 1, 2.5]
        ∧ (computeBoundingBox g sampleVertices 3).modelSize = 6) := by
  have general : ∀ (g : Model F) (vertices : Floats F) (count : Nat), 0 < count →
      ∀ j : Nat, j < 3 →
        (∀ i < count, (computeBoundingBox g vertices count).modelMin j ≤ vertices (i * 3 + j))
        ∧ (∃ i < count, (computeBoundingBox g vertices count).modelMin j = vertices (i * 3 + j))
        ∧ (∀ i < count, vertices (i * 3 + j) ≤ (computeBoundingBox g vertices count).modelMax j)
        ∧ (∃ i < count, (computeBoundingBox g vertices count).modelMax j
            = vertices (i * 3 + j)) := by
    intro g vertices count hc j hj
    rw [computeBoundingBox_modelMin, computeBoundingBox_modelMax]
    obtain ⟨_, a2, a3⟩ := loop_modelMin vertices (computeBoundingBox.first vertices g) j hj count
    obtain ⟨_, b2, b3⟩ := loop_modelMax vertices (computeBoundingBox.first vertices g) j hj count
    refine ⟨a2, ?_, b2, ?_⟩
    · rcases a3 with a3 | a3
      · exact ⟨0, hc, by rw [a3, first_modelMin _ _ _ hj, Nat.zero_mul, Nat.zero_add]⟩
      · exact a3
    · rcases b3 with b3 | b3
      · exact ⟨0, hc, by rw [b3, first_modelMax _ _ _ hj, Nat.zero_mul, Nat.zero_add]⟩
      · exact b3
  have sample : ∀ (g : Model F) (j : Nat), j < 3 →
      (computeBoundingBox g sampleVertices 3).modelMin j = ([-1, -2, 0] : List F).getD j 0
      ∧ (computeBoundingBox g sampleVertices 3).modelMax j = ([3, 4, 5] : List F).getD j 0 := by
    intro g j hj
    rw [computeBoundingBox_modelMin, computeBoundingBox_modelMax]
    simp only [forLoop, vertex_modelMin _ _ _ _ hj, vertex_modelMax _ _ _ _ hj,
      first_modelMin _ _ _ hj, first_modelMax _ _ _ hj]
    interval_cases j <;> norm_num [sampleVertices]
  refine ⟨fun g vertices count hc => ⟨fun j => ?_, computeBoundingBox_modelSize g vertices count⟩,
    fun g => ?_⟩
  · obtain ⟨c1, ⟨i, hi, c2⟩, c3, c4⟩ := general g vertices count hc j.val j.isLt
    refine ⟨c1, ⟨i, hi, c2⟩, c3, c4, ?_, ?_⟩
    · exact le_trans (c1 i hi) (c3 i hi)
    · rw [computeBoundingBox_modelCenter g vertices count j.val j.isLt]
      norm_num
      ring
  · have s0 := sample g 0 (by norm_num)
    have s1 := sample g 1 (by norm_num)
    have s2 := sample g 2 (by norm_num)
    simp only [List.getD_cons_zero, List.getD_cons_succ] at s0 s1 s2
    refine ⟨?_, ?_, ?_, ?_⟩
    · simp [List.range_succ, s0.1, s1.1, s2.1]
    · simp [List.range_succ, s0.2, s1.2, s2.2]
    · simp only [List.range_succ, List.range_zero, List.nil_append, List.cons_append,
        List.map_cons, List.map_nil,
        computeBoundingBox_modelCenter g _ _ 0 (by norm_num),
        computeBoundingBox_modelCenter g _ _ 1 (by norm_num),
        computeBoundingBox_modelCenter g _ _ 2 (by norm_num), s0.1, s1.1, s2.1, s0.2, s1.2, s2.2]
      norm_num
    · rw [computeBoundingBox_modelSize, s0.1, s1.1, s2.1, s0.2, s1.2, s2.2]
      norm_num

/-- Witness of `bounding_box_correct` on the three sample vertices. -/
theorem bounding_box_correct_witness :
    (computeBoundingBox Model.initial (sampleVertices : Floats ℚ) 3).modelMin 1
      ≤ (computeBoundingBox Model.initial (sampleVertices : Floats ℚ) 3).modelMax 1 :=
  (((@bounding_box_correct ℚ _).1 Model.initial sampleVertices 3 (by decide)).1 1).2.2.2.2.1

/-! ## Rotation and model matrix -/

theorem setScale_apply (m : Floats F) (x y z : F) (n : Nat) (h : n < 16) :
    setScale m x y z n = [x, 0, 0, 0, 0, y, 0, 0, 0, 0, z, 0, 0, 0, 0, 1].getD n 0 := by
  interval_cases n <;> rfl

theorem setTranslation_apply (m : Floats F) (x y z : F) (n : Nat) (h : n < 16) :
    setTranslation m x y z n = [1, 0, 0, 0, 0, 1, 0, 0, 0, 0, 1, 0, x, y, z, 1].getD n 0 := by
  interval_cases n <;> rfl

theorem rx_apply (cx sx : F) (n : Nat) (h : n < 16) :
    setRotationXY.rx cx sx n
      = [1, 0, 0, 0, 0, cx, -sx, 0, 0, sx, cx, 0, 0, 0, 0, 1].getD n 0 := by
  interval_cases n <;> rfl

theorem ry_apply (cy sy : F) (n : Nat) (h : n < 16) :
    setRotationXY.ry cy sy n
      = [cy, 0, sy, 0, 0, 1, 0, 0, -sy, 0, cy, 0, 0, 0, 0, 1].getD n 0 := by
  interval_cases n <;> rfl

set_option maxRecDepth 4000 in
theorem setRotationXY_apply (cosf sinf : F → F) (m : Floats F) (angleX angleY : F) (n : Nat)
    (h : n < 16) :
    setRotationXY cosf sinf m angleX angleY n
      = rowTimesCol (setRotationXY.ry (cosf angleY) (sinf angleY))
          (setRotationXY.rx (cosf angleX) (sinf angleX)) n := by
  interval_cases n <;> rfl

theorem setRotationXY_entries (cosf sinf : F → F) (m : Floats F) (angleX angleY : F) (n : Nat)
    (h : n < 16) :
    setRotationXY cosf sinf m angleX angleY n
      = [cosf angleY, sinf angleY * sinf angleX, sinf angleY * cosf angleX, 0,
          0, cosf angleX, -sinf angleX, 0,
          -sinf angleY, cosf angleY * sinf angleX, cosf angleY * cosf angleX, 0,
          0, 0, 0, 1].getD n 0 := by
  rw [setRotationXY_apply _ _ _ _ _ n h]
  interval_cases n <;> simp [rowTimesCol, rx_apply, ry_apply]

theorem rowMajor_setRotationXY (cosf sinf : F → F) (m : Floats F) (angleX angleY : F) :
    rowMajor (setRotationXY cosf sinf m angleX angleY)
      = Ry cosf sinf angleY * Rx cosf sinf angleX := by
  ext r c
  fin_cases r <;> fin_cases c <;>
    simp [rowMajor, setRotationXY_entries, Rx, Ry, Matrix.mul_apply, Fin.sum_univ_four,
      Matrix.vecHead, Matrix.vecTail]

omit [LinearOrderedField F] in
theorem colMajor_eq_transpose (m : Floats F) : colMajor m = (rowMajor m).transpose := by
  ext r c
  rfl


theorem Rx_transpose (t : ℝ) :
    (Rx Real.cos Real.sin t).transpose = Rx Real.cos Real.sin (-t) := by
  ext r c
  fin_cases r <;> fin_cases c <;>
    simp [Rx, Matrix.transpose_apply, Matrix.vecHead, Matrix.vecTail]

theorem Ry_transpose (t : ℝ) :
    (Ry Real.cos Real.sin t).transpose = Ry Real.cos Real.sin (-t) := by
  ext r c
  fin_cases r <;> fin_cases c <;>
    simp [Ry, Matrix.transpose_apply, Matrix.vecHead, Matrix.vecTail]

/-- What `setRotationXY` writes, for all angles: read row-major the matrix is
`Ry(yawRad) * Rx(pitchRad)`; read in the column-major convention of the shader it
is the transpose of that product, which is `Rx(-pitchRad) * Ry(-yawRad)`. -/
theorem setRotationXY_transposed (m : Floats ℝ) (pitchRad yawRad : ℝ) :
    rowMajor (setRotationXY Real.cos Real.sin m pitchRad yawRad)
        = Ry Real.cos Real.sin yawRad * Rx Real.cos Real.sin pitchRad
    ∧ colMajor (setRotationXY Real.cos Real.sin m pitchRad yawRad)
        = (Ry Real.cos Real.sin yawRad * Rx Real.cos Real.sin pitchRad).transpose
    ∧ colMajor (setRotationXY Real.cos Real.sin m pitchRad yawRad)
        = Rx Real.cos Real.sin (-pitchRad) * Ry Real.cos Real.sin (-yawRad) := by
  refine ⟨rowMajor_setRotationXY _ _ _ _ _, ?_, ?_⟩
  · rw [colMajor_eq_transpose, rowMajor_setRotationXY]
  · rw [colMajor_eq_transpose, rowMajor_setRotationXY, Matrix.transpose_mul, Rx_transpose,
      Ry_transpose]

/-- C7 at a failing input: for `pitchRad = 0` and `yawRad = pi / 2` the matrix
written by `setRotationXY`, read column-major, has `-1` in row 0, column 2 and `1`
in row 2, column 0, where `Ry(yawRad) * Rx(pitchRad)` has `1` and `-1`: the two
matrices differ, the written one being the transpose. -/
theorem rotation_quarter_yaw_transposed :
    colMajor (setRotationXY Real.cos Real.sin (fun _ => 0) 0 (Real.pi / 2)) 0 2 = -1
    ∧ colMajor (setRotationXY Real.cos Real.sin (fun _ => 0) 0 (Real.pi / 2)) 2 0 = 1
    ∧ (Ry Real.cos Real.sin (Real.pi / 2) * Rx Real.cos Real.sin 0) 0 2 = 1
    ∧ (Ry Real.cos Real.sin (Real.pi / 2) * Rx Real.cos Real.sin 0) 2 0 = -1
    ∧ colMajor (setRotationXY Real.cos Real.sin (fun _ => 0) 0 (Real.pi / 2))
        ≠ Ry Real.cos Real.sin (Real.pi / 2) * Rx Real.cos Real.sin 0 := by
  have a : colMajor (setRotationXY Real.cos Real.sin (fun _ => 0) 0 (Real.pi / 2)) 0 2
      = -1 := by
    simp [colMajor, setRotationXY_entries]
  have b : (Ry Real.cos Real.sin (Real.pi / 2) * Rx Real.cos Real.sin 0) 0 2 = 1 := by
    simp [Rx, Ry, Matrix.mul_apply, Fin.sum_univ_four, Matrix.vecHead, Matrix.vecTail]
  refine ⟨a, ?_, b, ?_, ?_⟩
  · simp [colMajor, setRotationXY_entries]
  · simp [Rx, Ry, Matrix.mul_apply, Fin.sum_univ_four, Matrix.vecHead, Matrix.vecTail]
  · intro h
    rw [h, b] at a
    norm_num at a

theorem modelMatrix_center (c : Floats ℝ) (s : ℝ) :
    mulVec4 (modelMatrix Real.cos Real.sin Real.pi c 0 0 s) (vec4 c) 0 = (s - 1) * c 0
    ∧ mulVec4 (modelMatrix Real.cos Real.sin Real.pi c 0 0 s) (vec4 c) 1 = (s - 1) * c 1
    ∧ mulVec4 (modelMatrix Real.cos Real.sin Real.pi c 0 0 s) (vec4 c) 2 = (s - 1) * c 2
    ∧ mulVec4 (modelMatrix Real.cos Real.sin Real.pi c 0 0 s) (vec4 c) 3 = 1 := by
  refine ⟨?_, ?_, ?_, ?_⟩ <;>
    simp [mulVec4, modelMatrix, vec4, mul4x4_apply, rowTimesCol, setScale_apply,
      setTranslation_apply, setRotationXY_entries] <;> ring

theorem twoVertices_box (g : Model F) :
    (computeBoundingBox g twoVertices 2).modelCenter 0 = 1
    ∧ (computeBoundingBox g twoVertices 2).modelCenter 1 = 0
    ∧ (computeBoundingBox g twoVertices 2).modelCenter 2 = 0
    ∧ (computeBoundingBox g twoVertices 2).modelSize = 2 := by
  have key : ∀ j : Nat, j < 3 →
      (computeBoundingBox g twoVertices 2).modelMin j = 0
      ∧ (computeBoundingBox g twoVertices 2).modelMax j = ([2, 0, 0] : List F).getD j 0 := by
    intro j hj
    rw [computeBoundingBox_modelMin, computeBoundingBox_modelMax]
    simp only [forLoop, vertex_modelMin _ _ _ _ hj, vertex_modelMax _ _ _ _ hj,
      first_modelMin _ _ _ hj, first_modelMax _ _ _ hj]
    interval_cases j <;> norm_num [twoVertices]
  have s0 := key 0 (by norm_num)
  have s1 := key 1 (by norm_num)
  have s2 := key 2 (by norm_num)
  simp only [List.getD_cons_zero, List.getD_cons_succ] at s0 s1 s2
  refine ⟨?_, ?_, ?_, ?_⟩
  · rw [computeBoundingBox_modelCenter g _ _ 0 (by norm_num), s0.1, s0.2]
    norm_num
  · rw [computeBoundingBox_modelCenter g _ _ 1 (by norm_num), s1.1, s1.2]
    norm_num
  · rw [computeBoundingBox_modelCenter g _ _ 2 (by norm_num), s2.1, s2.2]
    norm_num
  · rw [computeBoundingBox_modelSize, s0.1, s1.1, s2.1, s0.2, s1.2, s2.2]
    norm_num

theorem adaptiveScale_initial :
    adaptiveScale Real.tan Real.pi SCR_WIDTH SCR_HEIGHT 2 = 27 / 20 / Real.sqrt 3 := by
  have h3 : (0 : ℝ) < Real.sqrt 3 := Real.sqrt_pos.mpr (by norm_num)
  have e : fov Real.pi / 2.0 = Real.pi / 6 := by
    unfold fov
    ring
  unfold adaptiveScale desiredScreenSize projFactor minWindow eyeZ SCR_WIDTH SCR_HEIGHT
  rw [e, Real.tan_pi_div_six]
  norm_num
  field_simp
  ring_nf
  rw [Real.sq_sqrt (by norm_num)]
  norm_num

/-- C2 at a failing input: for the mesh with the two vertices `(0,0,0)` and
`(2,0,0)`, the initial `1000 x 800` window and the initial camera, the model
matrix of the render loop, applied as the vertex shader applies it, sends the
bounding-box centre to a point whose x coordinate is `27/20 / sqrt 3 - 1`, which
is not `0`: the centre does not land on the world origin. -/
theorem model_center_off_origin :
    mulVec4
        (modelMatrix Real.cos Real.sin Real.pi
          (computeBoundingBox Model.initial twoVertices 2).modelCenter
          (Camera.initial : Camera ℝ).yaw (Camera.initial : Camera ℝ).pitch
          (adaptiveScale Real.tan Real.pi SCR_WIDTH SCR_HEIGHT
            (computeBoundingBox Model.initial twoVertices 2).modelSize))
        (vec4 (computeBoundingBox Model.initial twoVertices 2).modelCenter) 0
      = 27 / 20 / Real.sqrt 3 - 1
    ∧ 27 / 20 / Real.sqrt 3 - 1 ≠ 0 := by
  obtain ⟨b0, _, _, b3⟩ := twoVertices_box (Model.initial : Model ℝ)
  constructor
  · have h := (modelMatrix_center (computeBoundingBox Model.initial twoVertices 2).modelCenter
      (adaptiveScale Real.tan Real.pi SCR_WIDTH SCR_HEIGHT
        (computeBoundingBox Model.initial twoVertices 2).modelSize)).1
    simp only [Camera.initial]
    rw [h, b0, b3, adaptiveScale_initial]
    ring
  · intro h
    have h3 : (0 : ℝ) < Real.sqrt 3 := Real.sqrt_pos.mpr (by norm_num)
    have e : Real.sqrt 3 = 27 / 20 := by
      field_simp at h
      linarith
    have sq := Real.sq_sqrt (show (0 : ℝ) ≤ 3 by norm_num)
    rw [e] at sq
    norm_num at sq

/-! ## Projection and view matrices -/

theorem setPerspective_apply (tanf : F → F) (m : Floats F) (fov aspect near far : F) (n : Nat)
    (h : n < 16) :
    setPerspective tanf m fov aspect near far n
      = [1 / tanf (fov / 2) / aspect, 0, 0, 0, 0, 1 / tanf (fov / 2), 0, 0,
          0, 0, (far + near) / (near - far), -1,
          0, 0, (2 * far * near) / (near - far), 1].getD n 0 := by
  interval_cases n <;> rfl

/-- C8 at a failing input: `setPerspective` leaves element 15 at the `1` that
`setIdentity` wrote, for every argument; with the projection matrix of the render
loop (`near = 0.1`, `far = 100`) a view-space point at depth `z = -near` gets clip
`w = near + 1` and normalised depth `-1/11`, not `-1`. -/
theorem perspective_last_element (tanf : F → F) (pi : F) (winWidth winHeight : Int) :
    (∀ (m : Floats F) (fov aspect near far : F),
        setPerspective tanf m fov aspect near far 15 = 1)
    ∧ mulVec4 (projMatrix tanf pi winWidth winHeight) (onAxis (-0.1)) 3 = 0.1 + 1
    ∧ mulVec4 (projMatrix tanf pi winWidth winHeight) (onAxis (-0.1)) 2
        / mulVec4 (projMatrix tanf pi winWidth winHeight) (onAxis (-0.1)) 3 = -1 / 11 := by
  refine ⟨fun m fov aspect near far => rfl, ?_, ?_⟩
  · simp [mulVec4, projMatrix, onAxis, setPerspective_apply]
  · simp [mulVec4, projMatrix, onAxis, setPerspective_apply]
    norm_num

theorem setView_right (sqrtf : F → F) (m : Floats F) (eyeX eyeY eyeZ centerX centerY centerZ
    upX upY upZ : F) :
    setView sqrtf m eyeX eyeY eyeZ centerX centerY centerZ upX upY upZ 0
        = (centerY - eyeY)
              / sqrtf ((centerX - eyeX) * (centerX - eyeX) + (centerY - eyeY) * (centerY - eyeY)
                  + (centerZ - eyeZ) * (centerZ - eyeZ))
            * (upZ / sqrtf (upX * upX + upY * upY + upZ * upZ))
          - (centerZ - eyeZ)
              / sqrtf ((centerX - eyeX) * (centerX - eyeX) + (centerY - eyeY) * (centerY - eyeY)
                  + (centerZ - eyeZ) * (centerZ - eyeZ))
            * (upY / sqrtf (upX * upX + upY * upY + upZ * upZ))
    ∧ setView sqrtf m eyeX eyeY eyeZ centerX centerY centerZ upX upY upZ 4
        = (centerZ - eyeZ)
              / sqrtf ((centerX - eyeX) * (centerX - eyeX) + (centerY - eyeY) * (centerY - eyeY)
                  + (centerZ - eyeZ) * (centerZ - eyeZ))
            * (upX / sqrtf (upX * upX + upY * upY + upZ * upZ))
          - (centerX - eyeX)
              / sqrtf ((centerX - eyeX) * (centerX - eyeX) + (centerY - eyeY) * (centerY - eyeY)
                  + (centerZ - eyeZ) * (centerZ - eyeZ))
            * (upZ / sqrtf (upX * upX + upY * upY + upZ * upZ))
    ∧ setView sqrtf m eyeX eyeY eyeZ centerX centerY centerZ upX upY upZ 8
        = (centerX - eyeX)
              / sqrtf ((centerX - eyeX) * (centerX - eyeX) + (centerY - eyeY) * (centerY - eyeY)
                  + (centerZ - eyeZ) * (centerZ - eyeZ))
            * (upY / sqrtf (upX * upX + upY * upY + upZ * upZ))
          - (centerY - eyeY)
              / sqrtf ((centerX - eyeX) * (centerX - eyeX) + (centerY - eyeY) * (centerY - eyeY)
                  + (centerZ - eyeZ) * (centerZ - eyeZ))
            * (upX / sqrtf (upX * upX + upY * upY + upZ * upZ)) :=
  ⟨rfl, rfl, rfl⟩

/-- C9 at a failing input: for the eye `(0, 0.4, 3)`, target `(0,0,0)` and up
`(0,1,0)` of the render loop, the first basis row of the matrix written by
`setView` (elements 0, 4, 8) is `(3 / sqrt 9.16, 0, 0)`: its squared length is
`225/229`, not `1`, so it is not `normalize(forward x up) = (1, 0, 0)`. -/
theorem view_right_row_not_unit :
    viewMatrix Real.sqrt 0 = 3 / Real.sqrt 9.16
    ∧ viewMatrix Real.sqrt 4 = 0
    ∧ viewMatrix Real.sqrt 8 = 0
    ∧ viewMatrix Real.sqrt 0 ^ 2 + viewMatrix Real.sqrt 4 ^ 2 + viewMatrix Real.sqrt 8 ^ 2
        = 225 / 229 := by
  have e : (0 - 0) * (0 - 0) + (0 - (0.4 : ℝ)) * (0 - 0.4) + (0 - 3.0) * (0 - 3.0) = 9.16 := by
    norm_num
  have u : (0 : ℝ) * 0 + 1 * 1 + 0 * 0 = 1 := by norm_num
  have h0 : viewMatrix Real.sqrt 0 = 3 / Real.sqrt 9.16 := by
    unfold viewMatrix eyeX eyeY eyeZ upX upY upZ
    rw [(setView_right _ _ _ _ _ _ _ _ _ _ _).1, e, u, Real.sqrt_one]
    ring
  have h4 : viewMatrix Real.sqrt 4 = 0 := by
    unfold viewMatrix eyeX eyeY eyeZ upX upY upZ
    rw [(setView_right _ _ _ _ _ _ _ _ _ _ _).2.1, e, u, Real.sqrt_one]
    norm_num
  have h8 : viewMatrix Real.sqrt 8 = 0 := by
    unfold viewMatrix eyeX eyeY eyeZ upX upY upZ
    rw [(setView_right _ _ _ _ _ _ _ _ _ _ _).2.2, e, u, Real.sqrt_one]
    norm_num
  refine ⟨h0, h4, h8, ?_⟩
  rw [h0, h4, h8, div_pow, Real.sq_sqrt (by norm_num)]
  norm_num

/-! ## Projected footprint -/

theorem setView_rows (sqrtf : F → F) (m : Floats F) (eyeX eyeY eyeZ centerX centerY centerZ
    upX upY upZ : F) :
    let fmag := sqrtf ((centerX - eyeX) * (centerX - eyeX) + (centerY - eyeY) * (centerY - eyeY)
      + (centerZ - eyeZ) * (centerZ - eyeZ))
    let smag := sqrtf (upX * upX + upY * upY + upZ * upZ)
    let f0 := (centerX - eyeX) / fmag
    let f1 := (centerY - eyeY) / fmag
    let f2 := (centerZ - eyeZ) / fmag
    let s0 := f1 * (upZ / smag) - f2 * (upY / smag)
    let s1 := f2 * (upX / smag) - f0 * (upZ / smag)
    let s2 := f0 * (upY / smag) - f1 * (upX / smag)
    setView sqrtf m eyeX eyeY eyeZ centerX centerY centerZ upX upY upZ 12
        = -(s0 * eyeX + s1 * eyeY + s2 * eyeZ)
    ∧ setView sqrtf m eyeX eyeY eyeZ centerX centerY centerZ upX upY upZ 2 = -f0
    ∧ setView sqrtf m eyeX eyeY eyeZ centerX centerY centerZ upX upY upZ 6 = -f1
    ∧ setView sqrtf m eyeX eyeY eyeZ centerX centerY centerZ upX upY upZ 10 = -f2
    ∧ setView sqrtf m eyeX eyeY eyeZ centerX centerY centerZ upX upY upZ 14
        = f0 * eyeX + f1 * eyeY + f2 * eyeZ
    ∧ setView sqrtf m eyeX eyeY eyeZ centerX centerY centerZ upX upY upZ 3 = 0
    ∧ setView sqrtf m eyeX eyeY eyeZ centerX centerY centerZ upX upY upZ 7 = 0
    ∧ setView sqrtf m eyeX eyeY eyeZ centerX centerY centerZ upX upY upZ 11 = 0
    ∧ setView sqrtf m eyeX eyeY eyeZ centerX centerY centerZ upX upY upZ 15 = 1 :=
  ⟨rfl, rfl, rfl, rfl, rfl, rfl, rfl, rfl, rfl⟩

theorem viewMatrix_entries :
    viewMatrix Real.sqrt 0 = 3 / Real.sqrt 9.16
    ∧ viewMatrix Real.sqrt 4 = 0
    ∧ viewMatrix Real.sqrt 8 = 0
    ∧ viewMatrix Real.sqrt 12 = 0
    ∧ viewMatrix Real.sqrt 2 = 0
    ∧ viewMatrix Real.sqrt 14 = -(9.16 / Real.sqrt 9.16)
    ∧ viewMatrix Real.sqrt 3 = 0
    ∧ viewMatrix Real.sqrt 15 = 1 := by
  have e : (0 - 0) * (0 - 0) + (0 - (0.4 : ℝ)) * (0 - 0.4) + (0 - 3.0) * (0 - 3.0) = 9.16 := by
    norm_num
  have u : (0 : ℝ) * 0 + 1 * 1 + 0 * 0 = 1 := by norm_num
  have r := setView_right Real.sqrt (fun _ => 0) (0 : ℝ) 0.4 3.0 0 0 0 0 1 0
  have q := setView_rows Real.sqrt (fun _ => 0) (0 : ℝ) 0.4 3.0 0 0 0 0 1 0
  simp only [e, u, Real.sqrt_one] at r q
  obtain ⟨r0, r4, r8⟩ := r
  obtain ⟨q12, q2, _, _, q14, q3, _, _, q15⟩ := q
  unfold viewMatrix eyeX eyeY eyeZ upX upY upZ
  refine ⟨?_, ?_, ?_, ?_, ?_, ?_, q3, q15⟩
  · rw [r0]
    ring
  · rw [r4]
    ring
  · rw [r8]
    ring
  · rw [q12]
    ring
  · rw [q2]
    ring
  · rw [q14]
    ring

theorem modelMatrix_vec (c p : Floats ℝ) (s : ℝ) :
    mulVec4 (modelMatrix Real.cos Real.sin Real.pi c 0 0 s) (vec4 p) 0 = s * p 0 - c 0
    ∧ mulVec4 (modelMatrix Real.cos Real.sin Real.pi c 0 0 s) (vec4 p) 1 = s * p 1 - c 1
    ∧ mulVec4 (modelMatrix Real.cos Real.sin Real.pi c 0 0 s) (vec4 p) 2 = s * p 2 - c 2
    ∧ mulVec4 (modelMatrix Real.cos Real.sin Real.pi c 0 0 s) (vec4 p) 3 = 1 := by
  refine ⟨?_, ?_, ?_, ?_⟩ <;>
    simp [mulVec4, modelMatrix, vec4, mul4x4_apply, rowTimesCol, setScale_apply,
      setTranslation_apply, setRotationXY_entries] <;> ring

theorem segmentVertices_box (g : Model F) :
    (computeBoundingBox g segmentVertices 2).modelCenter 0 = 0
    ∧ (computeBoundingBox g segmentVertices 2).modelCenter 1 = 0
    ∧ (computeBoundingBox g segmentVertices 2).modelCenter 2 = 0
    ∧ (computeBoundingBox g segmentVertices 2).modelSize = 2 := by
  have key : ∀ j : Nat, j < 3 →
      (computeBoundingBox g segmentVertices 2).modelMin j = ([-1, 0, 0] : List F).getD j 0
      ∧ (computeBoundingBox g segmentVertices 2).modelMax j = ([1, 0, 0] : List F).getD j 0 := by
    intro j hj
    rw [computeBoundingBox_modelMin, computeBoundingBox_modelMax]
    simp only [forLoop, vertex_modelMin _ _ _ _ hj, vertex_modelMax _ _ _ _ hj,
      first_modelMin _ _ _ hj, first_modelMax _ _ _ hj]
    interval_cases j <;> norm_num [segmentVertices]
  have s0 := key 0 (by norm_num)
  have s1 := key 1 (by norm_num)
  have s2 := key 2 (by norm_num)
  simp only [List.getD_cons_zero, List.getD_cons_succ] at s0 s1 s2
  refine ⟨?_, ?_, ?_, ?_⟩
  · rw [computeBoundingBox_modelCenter g _ _ 0 (by norm_num), s0.1, s0.2]
    norm_num
  · rw [computeBoundingBox_modelCenter g _ _ 1 (by norm_num), s1.1, s1.2]
    norm_num
  · rw [computeBoundingBox_modelCenter g _ _ 2 (by norm_num), s2.1, s2.2]
    norm_num
  · rw [computeBoundingBox_modelSize, s0.1, s1.1, s2.1, s0.2, s1.2, s2.2]
    norm_num

theorem adaptiveScale_wide :
    adaptiveScale Real.tan Real.pi 1600 400 2 = 27 / 20 / Real.sqrt 3 := by
  have h3 : (0 : ℝ) < Real.sqrt 3 := Real.sqrt_pos.mpr (by norm_num)
  have e : fov Real.pi / 2.0 = Real.pi / 6 := by
    unfold fov
    ring
  unfold adaptiveScale desiredScreenSize projFactor minWindow eyeZ
  rw [e, Real.tan_pi_div_six]
  norm_num
  field_simp
  ring_nf
  rw [Real.sq_sqrt (by norm_num)]
  norm_num

theorem projMatrix_wide_entries :
    projMatrix Real.tan Real.pi 1600 400 0 = Real.sqrt 3 / 4
    ∧ projMatrix Real.tan Real.pi 1600 400 4 = 0
    ∧ projMatrix Real.tan Real.pi 1600 400 8 = 0
    ∧ projMatrix Real.tan Real.pi 1600 400 12 = 0
    ∧ projMatrix Real.tan Real.pi 1600 400 3 = 0
    ∧ projMatrix Real.tan Real.pi 1600 400 7 = 0
    ∧ projMatrix Real.tan Real.pi 1600 400 11 = -1
    ∧ projMatrix Real.tan Real.pi 1600 400 15 = 1 := by
  have e : fov Real.pi / 2 = Real.pi / 6 := by
    unfold fov
    ring
  refine ⟨?_, ?_, ?_, ?_, ?_, ?_, ?_, ?_⟩ <;>
    simp [projMatrix, setPerspective_apply, e, Real.tan_pi_div_six]
  norm_num

theorem clip_of_world (w : Floats ℝ) (hw1 : w 1 = 0) (hw2 : w 2 = 0) (hw3 : w 3 = 1) :
    mulVec4 (projMatrix Real.tan Real.pi 1600 400) (mulVec4 (viewMatrix Real.sqrt) w) 0
        = Real.sqrt 3 / 4 * (3 / Real.sqrt 9.16 * w 0)
    ∧ mulVec4 (projMatrix Real.tan Real.pi 1600 400) (mulVec4 (viewMatrix Real.sqrt) w) 3
        = 9.16 / Real.sqrt 9.16 + 1 := by
  obtain ⟨v0, v4, v8, v12, v2, v14, v3, v15⟩ := viewMatrix_entries
  obtain ⟨p0, p4, p8, p12, p3, p7, p11, p15⟩ := projMatrix_wide_entries
  constructor
  · simp only [mulVec4, Nat.reduceMul, Nat.reduceAdd, p0, p4, p8, p12, v0, v4, v8, v12, hw1,
      hw2, hw3]
    ring
  · simp only [mulVec4, Nat.reduceMul, Nat.reduceAdd, p3, p7, p11, p15, v2, v14, v3, v15, hw1,
      hw2, hw3]
    ring

theorem screenX_segment (p : Floats ℝ) (h1 : p 1 = 0) (h2 : p 2 = 0) :
    screenX Real.tan Real.cos Real.sin Real.sqrt Real.pi 1600 400
        (computeBoundingBox Model.initial segmentVertices 2) Camera.initial p
      = (81 / 80 * p 0 / (9.16 + Real.sqrt 9.16) + 1) * 800 := by
  obtain ⟨b0, b1, b2, b3⟩ := segmentVertices_box (Model.initial : Model ℝ)
  obtain ⟨m0, m1, m2, m3⟩ := modelMatrix_vec
    (computeBoundingBox Model.initial segmentVertices 2).modelCenter p
    (adaptiveScale Real.tan Real.pi 1600 400
      (computeBoundingBox Model.initial segmentVertices 2).modelSize)
  have hd : (0 : ℝ) < Real.sqrt 9.16 := Real.sqrt_pos.mpr (by norm_num)
  have h3 : (0 : ℝ) < Real.sqrt 3 := Real.sqrt_pos.mpr (by norm_num)
  have ms : adaptiveScale Real.tan Real.pi 1600 400
      (computeBoundingBox Model.initial segmentVertices 2).modelSize = 27 / 20 / Real.sqrt 3 := by
    rw [b3]
    exact adaptiveScale_wide
  rw [b1, h1] at m1
  rw [b2, h2] at m2
  obtain ⟨c0, c3⟩ := clip_of_world _ (by rw [m1]; ring) (by rw [m2]; ring) m3
  unfold screenX windowX glPosition
  simp only [Camera.initial]
  rw [c0, c3, m0, b0, ms]
  push_cast
  generalize Real.sqrt 9.16 = d at hd
  generalize Real.sqrt 3 = r at h3
  have hd2 : (9.16 : ℝ) + d ≠ 0 := by positivity
  field_simp
  ring

/-- C1 at a failing input: for the mesh with the two vertices `(-1,0,0)` and
`(1,0,0)` (centre at the origin, `modelSize = 2`), the `1600 x 400` window and the
initial camera, the render loop aims at `desiredScreenSize = 180` pixels, and the
two ends of the mesh are drawn `1620 / (9.16 + sqrt 9.16)` pixels apart, which is
less than `140`: the projected largest extent is not 45% of the smaller viewport
dimension. -/
theorem footprint_short_of_45_percent :
    (desiredScreenSize 1600 400 : ℝ) = 180
    ∧ screenX Real.tan Real.cos Real.sin Real.sqrt Real.pi 1600 400
          (computeBoundingBox Model.initial segmentVertices 2) Camera.initial
          (vertexAt segmentVertices 1)
        - screenX Real.tan Real.cos Real.sin Real.sqrt Real.pi 1600 400
          (computeBoundingBox Model.initial segmentVertices 2) Camera.initial
          (vertexAt segmentVertices 0)
        = 1620 / (9.16 + Real.sqrt 9.16)
    ∧ 1620 / (9.16 + Real.sqrt 9.16) < (140 : ℝ) := by
  have hd : (5 / 2 : ℝ) < Real.sqrt 9.16 := by
    rw [Real.lt_sqrt (by norm_num)]
    norm_num
  refine ⟨?_, ?_, ?_⟩
  · unfold desiredScreenSize minWindow
    norm_num
  · rw [screenX_segment _ (by simp [vertexAt, segmentVertices])
        (by simp [vertexAt, segmentVertices]),
      screenX_segment _ (by simp [vertexAt, segmentVertices])
        (by simp [vertexAt, segmentVertices])]
    have a1 : vertexAt (segmentVertices : Floats ℝ) 1 0 = 1 := by
      simp [vertexAt, segmentVertices]
    have a0 : vertexAt (segmentVertices : Floats ℝ) 0 0 = -1 := by
      simp [vertexAt, segmentVertices]
    rw [a1, a0]
    field_simp
    ring
  · rw [div_lt_iff₀ (by linarith)]
    linarith

end Waffle
